import Mathlib

/-!
Verification of the per-line comment generator (src/extension.ts).

The TypeScript source is embedded shallowly: strings are Lean `String`s
manipulated through their character lists, the editor selection is a pair of
(line, character) positions, the secret store is a map from names to optional
strings, and the single remote chat-completion call is an oracle input that is
either a well-formed reply body or a thrown error.  Each definition mirrors
one expression of the source file.
-/

/-- Embedding of the JavaScript whitespace class used by `trim` (ASCII part). -/
def jsIsWs (c : Char) : Bool := c.isWhitespace

/-- Embedding of JavaScript `String.prototype.trim` on the character list. -/
def trimChars (l : List Char) : List Char :=
  ((l.dropWhile jsIsWs).reverse.dropWhile jsIsWs).reverse

/-- Splitting on the regular expression line separator: each separator is
either a carriage return followed by a newline, or a lone newline. -/
def splitLinesAux : List Char → List Char → List String
  | [], acc => [String.mk acc.reverse]
  | '\r' :: '\n' :: rest, acc => String.mk acc.reverse :: splitLinesAux rest []
  | '\n' :: rest, acc => String.mk acc.reverse :: splitLinesAux rest []
  | c :: rest, acc => splitLinesAux rest (c :: acc)

/-- Embedding of `fullText.split(/\r?\n/)`. -/
def splitLines (s : String) : List String := splitLinesAux s.data []

/-- Embedding of the truthiness test `l.trim()` used by the line filter. -/
def isNonBlank (s : String) : Bool := trimChars s.data ≠ []

/-- The `\s?` part of the stripping regular expression: at most one
whitespace character is consumed. -/
def dropOneWsChars : List Char → List Char
  | [] => []
  | c :: rest => if jsIsWs c then rest else c :: rest

/-- Embedding of one application of `replace` with the anchored pattern:
a leading `//` or `#` marker, together with at most one following whitespace
character, is removed; anything else is left unchanged.  The `replace` call
uses a non-global pattern, so at most one marker occurrence is removed. -/
def stripMarkerChars : List Char → List Char
  | '/' :: '/' :: rest => dropOneWsChars rest
  | '#' :: rest => dropOneWsChars rest
  | l => l

/-- The body of one generated comment: the paired reply line with one leading
marker stripped and the result trimmed (`.replace(...).trim()`). -/
def mkCommentBody (s : String) : List Char := trimChars (stripMarkerChars s.data)

/-- The canonical marker characters of the template literal `// ${comment}`. -/
def markerChars : List Char := ['/', '/', ' ']

/-- The canonical marker as a string. -/
def canonicalMarker : String := String.mk markerChars

/-- Embedding of the template literal `// ${comment}` building the text
stored for one insertion. -/
def commentTextOf (s : String) : String := String.mk (markerChars ++ mkCommentBody s)

/-- String concatenation through the character lists (definitional unfolding
of `String.append`). -/
def strCat (a b : String) : String := String.mk (a.data ++ b.data)

/-- Embedding of JavaScript `startsWith`, used to state marker properties. -/
def strStartsWith (s p : String) : Bool := p.data.isPrefixOf s.data

/-- Whether a character list begins with one of the two comment markers. -/
def markerAtFront : List Char → Bool
  | '/' :: '/' :: _ => true
  | '#' :: _ => true
  | _ => false

/-- The empty string, used as the out-of-range default of list reads. -/
def emptyStr : String := String.mk []

/-- A doubled canonical marker, used to state the no-doubling property. -/
def doubledMarker : String := String.mk (markerChars ++ ['/', '/'])

/-- The newline appended to every inserted comment (`${text}\n`). -/
def nl : String := String.mk ['\n']

/-- An editor selection: a start and an end (line, character) position. -/
structure Selection where
  startLine : Nat
  startChar : Nat
  endLine : Nat
  endChar : Nat
deriving DecidableEq

/-- Embedding of `sel.isEmpty`: the start and end positions coincide. -/
def Selection.isEmptySel (s : Selection) : Bool :=
  s.startLine == s.endLine && s.startChar == s.endChar

/-- The loop of lines 82-86 of the source: walk the unfiltered split with a
running line counter starting at the selection's start line, record the
counter for each non-blank line, and stop once the incremented counter
exceeds the selection's end line. -/
def offsetsGo : List String → Nat → Nat → List Nat
  | [], _, _ => []
  | l :: ls, offset, endL =>
    (if isNonBlank l then [offset] else []) ++
      (if offset + 1 > endL then [] else offsetsGo ls (offset + 1) endL)

/-- Embedding of the `lineOffsets` computation. -/
def computeLineOffsets (fullText : String) (startLine endLine : Nat) : List Nat :=
  offsetsGo (splitLines fullText) startLine endLine

/-- Spec-side formulation of the recorded line numbers: the unfiltered split,
bounded to the selection's line range, with each line paired with
selection-start-line plus its index in the split (`enumFrom startLine`),
keeping the non-blank lines and projecting the line numbers. -/
def specLineNumbers (fullText : String) (startLine endLine : Nat) : List Nat :=
  ((((splitLines fullText).take (endLine + 1 - startLine)).enumFrom
      startLine).filter (fun p => isNonBlank p.2)).map (fun p => p.1)

/-- Embedding of lines 131-136: pair the i-th reply line with the i-th
retained source line for i below the smaller of the two lengths, strip one
marker and trim, and keep the pair when the resulting comment is non-empty.
The recorded line number is the i-th entry of `lineOffsets`; reading past the
end of that array yields `undefined`, modelled as `none`. -/
def buildComments (offs : List Nat) (lines cls : List String) :
    List (Option Nat × String) :=
  (List.range (min lines.length cls.length)).filterMap (fun i =>
    let src := cls.getD i emptyStr
    if mkCommentBody src = [] then none
    else some (offs.get? i, commentTextOf src))

/-- One call of `edit.insert`: a target line (possibly undefined), a column,
and the inserted text. -/
structure Insertion where
  line : Option Nat
  col : Nat
  text : String
deriving DecidableEq

/-- Embedding of lines 148-154: the collected comments are turned into
insertions in reverse collection order, each at column 0 of its target line
with a trailing line break, inside a single `editor.edit` transaction. -/
def mkInsertions (cs : List (Option Nat × String)) : List Insertion :=
  cs.reverse.map (fun c => { line := c.1, col := 0, text := strCat c.2 nl })

/-- The thrown error of a failed remote call: the optional
`err.response?.data?.error?.message` field and the optional `err.message`
field (an empty string is falsy and behaves like an absent field). -/
structure GroqFailure where
  responseErrMsg : Option String
  errMessage : Option String
deriving DecidableEq

/-- Outcome of the single remote call: a well-formed reply content
(`resp.data.choices[0].message.content`) or a thrown error. -/
inductive RemoteResult where
  | ok (content : String)
  | failure (e : GroqFailure)
deriving DecidableEq

/-- The generic fallback text of line 141. -/
def netErrMsg : String := "Network error"

/-- Embedding of the JavaScript `||` chain on optional strings: an absent or
empty left operand falls through to the right operand. -/
def jsOr (a : Option String) (b : String) : String :=
  match a with
  | none => b
  | some s => if s.data = [] then b else s

/-- Embedding of lines 138-141: the most specific available error text. -/
def groqErrMsg (e : GroqFailure) : String :=
  jsOr e.responseErrMsg (jsOr e.errMessage netErrMsg)

/-- The input of one `generateComments` invocation: the document text, the
selected text, the selection, the stored credential, and the remote oracle. -/
structure GenInput where
  docText : String
  selText : String
  sel : Selection
  storedKey : Option String
  remote : RemoteResult
deriving DecidableEq

/-- Embedding of lines 60-62: the whole document for an empty selection,
otherwise the selected text. -/
def fullTextOf (inp : GenInput) : String :=
  if inp.sel.isEmptySel then inp.docText else inp.selText

/-- The retained lines: `fullText.split(/\r?\n/).filter(l => l.trim())`. -/
def retainedOf (inp : GenInput) : List String :=
  (splitLines (fullTextOf inp)).filter isNonBlank

/-- The recorded line offsets of this invocation. -/
def offsetsOf (inp : GenInput) : List Nat :=
  computeLineOffsets (fullTextOf inp) inp.sel.startLine inp.sel.endLine

/-- Embedding of lines 128-129: the reply content is trimmed, split on line
breaks, and blank entries are discarded. -/
def replyLinesOf (content : String) : List String :=
  (splitLines (String.mk (trimChars content.data))).filter isNonBlank

/-- The observable outcome of one invocation: how many network requests were
made, the insertions of the single edit transaction in application order, and
the notifications shown. -/
structure GenResult where
  networkCalls : Nat
  insertions : List Insertion
  errorMsgs : List String
  warningMsgs : List String
  infoMsgs : List String
deriving DecidableEq

/-- The warning of line 65. -/
def noCodeMsg : String := "No code to comment."

/-- The error of lines 71-73. -/
def noKeyMsg : String :=
  "Groq API key missing. Run **CodeCommentGenerator: Set Groq API Key** first."

/-- The prefix of the error notification of line 142. -/
def groqErrHead : String := "Groq error: "

/-- The information message of line 156. -/
def okMsg : String := "Inline comments added!"

/-- The outcome of an invocation aborted by a missing (or falsy) key. -/
def noKeyResult : GenResult :=
  { networkCalls := 0, insertions := [], errorMsgs := [noKeyMsg],
    warningMsgs := [], infoMsgs := [] }

/-- Embedding of the `generateComments` command body (lines 53-158), with the
active editor present.  The blank check precedes the credential check; a
falsy stored key (absent or empty) aborts before the network call; a thrown
remote error is reported and the callback returns before the edit; otherwise
the paired comments are inserted bottom-to-top in one edit transaction. -/
def generateComments (inp : GenInput) : GenResult :=
  if trimChars (fullTextOf inp).data = [] then
    { networkCalls := 0, insertions := [], errorMsgs := [],
      warningMsgs := [noCodeMsg], infoMsgs := [] }
  else
    match inp.storedKey with
    | none => noKeyResult
    | some k =>
      if k.data = [] then noKeyResult
      else
        match inp.remote with
        | RemoteResult.failure e =>
          { networkCalls := 1, insertions := [],
            errorMsgs := [strCat groqErrHead (groqErrMsg e)],
            warningMsgs := [], infoMsgs := [] }
        | RemoteResult.ok content =>
          { networkCalls := 1,
            insertions := mkInsertions
              (buildComments (offsetsOf inp) (retainedOf inp)
                (replyLinesOf content)),
            errorMsgs := [], warningMsgs := [],
            infoMsgs := [okMsg] }

/-- The fixed identifier of the stored credential (line 7). -/
def KEY_NAME : String := "groqApiKey"

/-- Embedding of JavaScript `trim` on strings, used by `setKey`. -/
def jsTrim (s : String) : String := String.mk (trimChars s.data)

/-- The warning of line 40. -/
def cancelMsg : String := "Cancelled – no key saved."

/-- The information message of line 44. -/
def savedMsg : String := "Groq API key saved securely."

/-- The observable outcome of the set-key command: the secret store after the
command and the notifications shown. -/
structure SetKeyResult where
  secrets : String → Option String
  warningMsgs : List String
  infoMsgs : List String

/-- Embedding of the `setApiKey` command body (lines 32-45) together with
`setKey` (lines 12-14): a cancelled input box (`undefined`) or an empty
string is falsy, leaves the store untouched and warns; otherwise the entered
key is trimmed and stored under the fixed identifier. -/
def setApiKeyCommand (secrets : String → Option String) (input : Option String) :
    SetKeyResult :=
  match input with
  | none => { secrets := secrets, warningMsgs := [cancelMsg], infoMsgs := [] }
  | some k =>
    if k.data = [] then
      { secrets := secrets, warningMsgs := [cancelMsg], infoMsgs := [] }
    else
      { secrets := fun n => if n = KEY_NAME then some (jsTrim k) else secrets n,
        warningMsgs := [], infoMsgs := [savedMsg] }

/-- A concrete non-empty stored key used by the concrete invocations below. -/
def keyK : String := "k"

/-- A selection text whose non-blank lines sit at indices 0, 2 and 6 of the
split, paired with a selection running from line 3 to line 9. -/
def c3Sel : String := "a\n\nb\n\n\n\nc"

/-- A reply with exactly three non-blank lines whose middle line is a bare
marker and therefore strips to the empty comment. -/
def c3Reply : String := "x\n//\ny"

/-- Concrete invocation: retained source lines at document lines 3, 5 and 9,
and a three-line reply whose middle line is a bare marker. -/
def c3In : GenInput :=
  { docText := emptyStr, selText := c3Sel, sel := ⟨3, 0, 9, 1⟩,
    storedKey := some keyK, remote := RemoteResult.ok c3Reply }

/-- Concrete invocation whose reply line starts with two markers. -/
def c2In : GenInput :=
  { docText := "z", selText := emptyStr, sel := ⟨0, 0, 0, 0⟩,
    storedKey := some keyK, remote := RemoteResult.ok "// // x" }

/-- The text inserted by `c2In`. -/
def c2InsText : String := "// // x\n"

/-- Concrete invocation with a whitespace-only document and no stored key. -/
def c7In : GenInput :=
  { docText := " ", selText := emptyStr, sel := ⟨0, 0, 0, 0⟩,
    storedKey := none, remote := RemoteResult.failure ⟨none, none⟩ }

/-- Concrete invocation: empty selection with the cursor at the origin of a
two-line document, and a reply with one comment per document line. -/
def c8In : GenInput :=
  { docText := "a\nb", selText := emptyStr, sel := ⟨0, 0, 0, 0⟩,
    storedKey := some keyK, remote := RemoteResult.ok "x\ny" }

/-- Concrete document text of the C1 witness. -/
def w1Text : String := "a\n\nb"

/-- Concrete reply line of the C2 witness. -/
def w2r : String := "# note"

/-- Concrete reply content of the C3 witness. -/
def c3wContent : String := "u\nv\nw"

/-- The three reply lines of the C3 witness. -/
def w3r0 : String := "u"

/-- Second reply line of the C3 witness. -/
def w3r1 : String := "v"

/-- Third reply line of the C3 witness. -/
def w3r2 : String := "w"

/-- Concrete invocation of the C3 witness: same selection shape as `c3In`,
with a reply whose three lines all survive stripping. -/
def c3w : GenInput :=
  { docText := emptyStr, selText := c3Sel, sel := ⟨3, 0, 9, 1⟩,
    storedKey := some keyK, remote := RemoteResult.ok c3wContent }

/-- Concrete reply content of the C4 witness: one line against three. -/
def c4Content : String := "only"

/-- Concrete invocation of the C4 witness: three retained lines, one reply
line. -/
def c4w : GenInput :=
  { docText := emptyStr, selText := "a\nb\nc", sel := ⟨0, 0, 2, 1⟩,
    storedKey := some keyK, remote := RemoteResult.ok c4Content }

/-- Concrete thrown error of a failed call, with both fields present. -/
def w5e : GroqFailure :=
  { responseErrMsg := some "bad request", errMessage := some "code 400" }

/-- Concrete invocation of the C5 witness. -/
def c5w : GenInput :=
  { docText := "p", selText := emptyStr, sel := ⟨0, 0, 0, 0⟩,
    storedKey := some keyK, remote := RemoteResult.failure w5e }

/-- Concrete invocation of the C6 witness: a whitespace-only document. -/
def c6w : GenInput :=
  { docText := " \n\t ", selText := emptyStr, sel := ⟨0, 0, 0, 0⟩,
    storedKey := some keyK, remote := RemoteResult.failure ⟨none, none⟩ }

/-- Concrete invocation of the C7 witness: non-blank text, no stored key. -/
def c7w : GenInput :=
  { docText := "x", selText := emptyStr, sel := ⟨0, 0, 0, 0⟩,
    storedKey := none, remote := RemoteResult.failure ⟨none, none⟩ }

/-- Concrete invocation of the C9 witness. -/
def c9w : GenInput :=
  { docText := "p", selText := emptyStr, sel := ⟨0, 0, 0, 0⟩,
    storedKey := some keyK, remote := RemoteResult.ok "hi" }

/-- The single insertion produced by `c9w`. -/
def insW9 : Insertion := { line := some 0, col := 0, text := "// hi\n" }

/-- Concrete key entry of the C10 witness (with surrounding whitespace). -/
def w10Key : String := " gsk "

/-- The recorded offsets refine the spec-side formulation: the running
counter of the loop is the selection start line plus the index in the split,
bounded to the selection's line range. -/
theorem offsetsGo_eq_spec (ls : List String) : ∀ (offset endL : Nat), offset ≤ endL →
    offsetsGo ls offset endL =
      (((ls.take (endL + 1 - offset)).enumFrom offset).filter
        (fun p => isNonBlank p.2)).map (fun p => p.1) := by
  induction ls with
  | nil => intro offset endL _; simp [offsetsGo]
  | cons l ls ih =>
    intro offset endL h
    rcases Nat.lt_or_ge offset endL with hlt | hge
    · have h1 : endL + 1 - offset = (endL + 1 - (offset + 1)) + 1 := by omega
      have h2 : ¬ (offset + 1 > endL) := by omega
      rw [offsetsGo, if_neg h2, ih (offset + 1) endL hlt, h1,
        List.take_succ_cons]
      cases hnb : isNonBlank l <;>
        simp [List.enumFrom, List.filter_cons, hnb]
    · have he : offset = endL := Nat.le_antisymm h hge
      subst he
      have h1 : offset + 1 - offset = 1 := by omega
      rw [offsetsGo, if_pos (by omega : offset + 1 > offset), h1,
        List.take_succ_cons, List.take_zero]
      cases hnb : isNonBlank l <;>
        simp [List.enumFrom, List.filter_cons, hnb]

/-- Every recorded offset is at least the running counter it started from. -/
theorem offsetsGo_lb (ls : List String) : ∀ (offset endL x : Nat),
    x ∈ offsetsGo ls offset endL → offset ≤ x := by
  induction ls with
  | nil => intro o e x hx; simp [offsetsGo] at hx
  | cons l ls ih =>
    intro o e x hx
    rw [offsetsGo, List.mem_append] at hx
    rcases hx with hx | hx
    · split at hx
      · simp at hx; omega
      · simp at hx
    · split at hx
      · simp at hx
      · exact Nat.le_of_succ_le (ih (o + 1) e x hx)

/-- No offset beyond the selection's end line is recorded. -/
theorem offsetsGo_ub (ls : List String) : ∀ (offset endL x : Nat), offset ≤ endL →
    x ∈ offsetsGo ls offset endL → x ≤ endL := by
  induction ls with
  | nil => intro o e x _ hx; simp [offsetsGo] at hx
  | cons l ls ih =>
    intro o e x h hx
    rw [offsetsGo, List.mem_append] at hx
    rcases hx with hx | hx
    · split at hx
      · simp at hx; omega
      · simp at hx
    · split at hx
      · simp at hx
      · next hcond => exact ih (o + 1) e x (by omega) hx

/-- The recorded offsets are strictly increasing. -/
theorem offsetsGo_pairwise (ls : List String) : ∀ (offset endL : Nat),
    List.Pairwise (· < ·) (offsetsGo ls offset endL) := by
  induction ls with
  | nil => intro o e; simp [offsetsGo]
  | cons l ls ih =>
    intro o e
    rw [offsetsGo]
    refine List.pairwise_append.2 ⟨?_, ?_, ?_⟩
    · split <;> simp
    · split
      · simp
      · exact ih (o + 1) e
    · intro a ha b hb
      split at ha
      · simp at ha
        subst ha
        split at hb
        · simp at hb
        · exact Nat.lt_of_lt_of_le (Nat.lt_succ_self a)
            (offsetsGo_lb ls (a + 1) e b hb)
      · simp at ha

/-- C1: in per-line mode the k-th retained non-empty line is recorded with
line number selection-start-line plus its index within the unfiltered split
(the bounded split paired with `enumFrom startLine`, filtered to non-blank
lines); the recorded sequence is strictly increasing, and recording stops at
the selection's end line: every recorded number lies between the start line
and the end line. -/
theorem c1_per_line_offsets (fullText : String) (startLine endLine : Nat)
    (h : startLine ≤ endLine) :
    computeLineOffsets fullText startLine endLine =
        specLineNumbers fullText startLine endLine
      ∧ List.Pairwise (· < ·) (computeLineOffsets fullText startLine endLine)
      ∧ ∀ x ∈ computeLineOffsets fullText startLine endLine,
          startLine ≤ x ∧ x ≤ endLine := by
  refine ⟨offsetsGo_eq_spec _ _ _ h, offsetsGo_pairwise _ _ _, fun x hx => ?_⟩
  exact ⟨offsetsGo_lb _ _ _ _ hx, offsetsGo_ub _ _ _ _ h hx⟩

/-- Witness for C1 at a concrete three-line text and selection 0-2. -/
theorem c1_per_line_offsets_witness :
    computeLineOffsets w1Text 0 2 = specLineNumbers w1Text 0 2
      ∧ List.Pairwise (· < ·) (computeLineOffsets w1Text 0 2)
      ∧ ∀ x ∈ computeLineOffsets w1Text 0 2, 0 ≤ x ∧ x ≤ 2 :=
  c1_per_line_offsets w1Text 0 2 (by decide)

/-- On the success path the invocation performs one network call and inserts
the reversed paired comments in one edit transaction. -/
theorem generateComments_ok (inp : GenInput) (k content : String)
    (hnb : trimChars (fullTextOf inp).data ≠ [])
    (hk : inp.storedKey = some k) (hke : k.data ≠ [])
    (hr : inp.remote = RemoteResult.ok content) :
    generateComments inp =
      { networkCalls := 1,
        insertions := mkInsertions
          (buildComments (offsetsOf inp) (retainedOf inp) (replyLinesOf content)),
        errorMsgs := [], warningMsgs := [], infoMsgs := [okMsg] } := by
  unfold generateComments
  rw [if_neg hnb, hk, hr]
  simp [if_neg hke]

/-- On the failure path the invocation performs one network call, shows one
error notification, and returns before any edit. -/
theorem generateComments_failure (inp : GenInput) (k : String) (e : GroqFailure)
    (hnb : trimChars (fullTextOf inp).data ≠ [])
    (hk : inp.storedKey = some k) (hke : k.data ≠ [])
    (hr : inp.remote = RemoteResult.failure e) :
    generateComments inp =
      { networkCalls := 1, insertions := [],
        errorMsgs := [strCat groqErrHead (groqErrMsg e)],
        warningMsgs := [], infoMsgs := [] } := by
  unfold generateComments
  rw [if_neg hnb, hk, hr]
  simp [if_neg hke]

/-- Every collected comment pairs the i-th recorded offset with the canonical
text of the i-th reply line for some index below both lengths. -/
theorem mem_buildComments {offs : List Nat} {lines cls : List String}
    {c : Option Nat × String} (hc : c ∈ buildComments offs lines cls) :
    ∃ i < min lines.length cls.length,
      c.1 = offs.get? i ∧ c.2 = commentTextOf (cls.getD i emptyStr) := by
  simp only [buildComments, List.mem_filterMap, List.mem_range] at hc
  obtain ⟨i, hi, hf⟩ := hc
  refine ⟨i, hi, ?_⟩
  by_cases hb : mkCommentBody (cls.getD i emptyStr) = []
  · rw [if_pos hb] at hf
    exact absurd hf (by simp)
  · rw [if_neg hb] at hf
    obtain rfl : (offs.get? i, commentTextOf (cls.getD i emptyStr)) = c :=
      Option.some.inj hf
    exact ⟨rfl, rfl⟩

/-- Reading inside the taken range agrees with reading the full list. -/
theorem getD_take {α : Type} (l : List α) : ∀ (n i : Nat) (d : α), i < n →
    (l.take n).getD i d = l.getD i d := by
  induction l with
  | nil => intro n i d _; simp
  | cons a l ih =>
    intro n i d hin
    cases n with
    | zero => omega
    | succ n =>
      cases i with
      | zero => simp
      | succ i => simpa using ih n i d (by omega)

/-- At most `min` of the two lengths comments are collected. -/
theorem buildComments_length_le (offs : List Nat) (lines cls : List String) :
    (buildComments offs lines cls).length ≤ min lines.length cls.length := by
  calc (buildComments offs lines cls).length
      ≤ (List.range (min lines.length cls.length)).length :=
        List.length_filterMap_le _ _
    _ = min lines.length cls.length := List.length_range _

/-- Source lines beyond the reply's length play no role in the pairing. -/
theorem buildComments_lines_take (offs : List Nat) (lines cls : List String)
    (h : cls.length ≤ lines.length) :
    buildComments offs lines cls =
      buildComments offs (lines.take cls.length) cls := by
  simp only [buildComments, List.length_take, min_eq_right h,
    min_eq_left h, min_self]

/-- Reply lines beyond the source's length play no role in the pairing. -/
theorem buildComments_cls_take (offs : List Nat) (lines cls : List String)
    (h : lines.length ≤ cls.length) :
    buildComments offs lines cls =
      buildComments offs lines (cls.take lines.length) := by
  simp only [buildComments, List.length_take, min_eq_left h, min_self,
    min_eq_right h]
  refine List.filterMap_congr (fun i hi => ?_)
  rw [List.mem_range] at hi
  rw [getD_take cls lines.length i emptyStr hi]

/-- C4: with K non-blank reply lines and N retained source lines, only the
first min(N, K) pairs are considered: at most min(N, K) insertions happen,
truncating the source lines to the first K (when K < N) or the reply lines
to the first N (when N < K) leaves the edit unchanged, and every insertion
takes its target from one of the first min(N, K) recorded offsets. -/
theorem c4_pairing_policy (inp : GenInput) (k content : String)
    (hnb : trimChars (fullTextOf inp).data ≠ [])
    (hk : inp.storedKey = some k) (hke : k.data ≠ [])
    (hr : inp.remote = RemoteResult.ok content) :
    (generateComments inp).insertions.length ≤
        min (retainedOf inp).length (replyLinesOf content).length
      ∧ ((replyLinesOf content).length < (retainedOf inp).length →
          (generateComments inp).insertions = mkInsertions
            (buildComments (offsetsOf inp)
              ((retainedOf inp).take (replyLinesOf content).length)
              (replyLinesOf content)))
      ∧ ((retainedOf inp).length < (replyLinesOf content).length →
          (generateComments inp).insertions = mkInsertions
            (buildComments (offsetsOf inp) (retainedOf inp)
              ((replyLinesOf content).take (retainedOf inp).length)))
      ∧ ∀ ins ∈ (generateComments inp).insertions,
          ∃ i < min (retainedOf inp).length (replyLinesOf content).length,
            ins.line = (offsetsOf inp).get? i := by
  rw [generateComments_ok inp k content hnb hk hke hr]
  refine ⟨?_, ?_, ?_, ?_⟩
  · calc (mkInsertions (buildComments (offsetsOf inp) (retainedOf inp)
        (replyLinesOf content))).length
        = (buildComments (offsetsOf inp) (retainedOf inp)
            (replyLinesOf content)).length := by
          simp [mkInsertions]
      _ ≤ _ := buildComments_length_le _ _ _
  · intro hlt
    rw [← buildComments_lines_take _ _ _ (Nat.le_of_lt hlt)]
  · intro hlt
    rw [← buildComments_cls_take _ _ _ (Nat.le_of_lt hlt)]
  · intro ins hins
    simp only [mkInsertions, List.mem_map, List.mem_reverse] at hins
    obtain ⟨c, hc, rfl⟩ := hins
    obtain ⟨i, hi, hline, _⟩ := mem_buildComments hc
    exact ⟨i, hi, hline⟩

/-- Witness for C4: three retained lines against a one-line reply. -/
theorem c4_pairing_policy_witness :
    (generateComments c4w).insertions.length ≤
        min (retainedOf c4w).length (replyLinesOf c4Content).length
      ∧ ((replyLinesOf c4Content).length < (retainedOf c4w).length →
          (generateComments c4w).insertions = mkInsertions
            (buildComments (offsetsOf c4w)
              ((retainedOf c4w).take (replyLinesOf c4Content).length)
              (replyLinesOf c4Content)))
      ∧ ((retainedOf c4w).length < (replyLinesOf c4Content).length →
          (generateComments c4w).insertions = mkInsertions
            (buildComments (offsetsOf c4w) (retainedOf c4w)
              ((replyLinesOf c4Content).take (retainedOf c4w).length)))
      ∧ ∀ ins ∈ (generateComments c4w).insertions,
          ∃ i < min (retainedOf c4w).length (replyLinesOf c4Content).length,
            ins.line = (offsetsOf c4w).get? i :=
  c4_pairing_policy c4w keyK c4Content (by decide) rfl (by decide) rfl

/-- C9: every inserted comment text begins with the fixed canonical marker,
whatever the input, selection, stored key and remote reply were. -/
theorem c9_canonical_marker (inp : GenInput) :
    ∀ ins ∈ (generateComments inp).insertions,
      strStartsWith ins.text canonicalMarker = true := by
  intro ins hins
  unfold generateComments at hins
  split at hins
  · simp at hins
  · split at hins
    · simp [noKeyResult] at hins
    · split at hins
      · simp [noKeyResult] at hins
      · split at hins
        · simp at hins
        · simp only [mkInsertions, List.mem_map, List.mem_reverse] at hins
          obtain ⟨c, hc, rfl⟩ := hins
          obtain ⟨i, _, _, htext⟩ := mem_buildComments hc
          simp only [htext, strStartsWith, strCat, commentTextOf,
            canonicalMarker, markerChars, nl]
          simp [List.isPrefixOf]

/-- Witness for C9 at a concrete invocation and its single insertion. -/
theorem c9_canonical_marker_witness :
    strStartsWith insW9.text canonicalMarker = true :=
  c9_canonical_marker c9w insW9 (by decide)

/-- The pairing of a three-offset list with a three-line reply whose lines all
survive stripping yields exactly the three pairs in ascending order. -/
theorem buildComments_three (o0 o1 o2 : Nat) (lines : List String)
    (r0 r1 r2 : String) (hlen : lines.length = 3)
    (h0 : mkCommentBody r0 ≠ []) (h1 : mkCommentBody r1 ≠ [])
    (h2 : mkCommentBody r2 ≠ []) :
    buildComments [o0, o1, o2] lines [r0, r1, r2] =
      [(some o0, commentTextOf r0), (some o1, commentTextOf r1),
        (some o2, commentTextOf r2)] := by
  rw [show buildComments [o0, o1, o2] lines [r0, r1, r2] =
      (List.range (min lines.length 3)).filterMap (fun i =>
        if mkCommentBody ([r0, r1, r2].getD i emptyStr) = [] then none
        else some (([o0, o1, o2] : List Nat).get? i,
          commentTextOf ([r0, r1, r2].getD i emptyStr))) from rfl]
  rw [hlen]
  rw [show List.range (min 3 3) = [0, 1, 2] from rfl]
  simp [List.filterMap_cons, h0, h1, h2]

/-- C3 counterexample: retained source lines sit at document lines 3, 5 and 9
and the reply has exactly three non-blank lines, yet only two comments are
inserted, because the middle reply line is a bare marker that strips to the
empty comment and is discarded. -/
theorem c3_counterexample :
    offsetsOf c3In = [3, 5, 9]
      ∧ (retainedOf c3In).length = 3
      ∧ (replyLinesOf c3Reply).length = 3
      ∧ (∀ r ∈ replyLinesOf c3Reply, isNonBlank r = true)
      ∧ c3In.remote = RemoteResult.ok c3Reply
      ∧ (generateComments c3In).insertions.length = 2 := by
  decide

/-- The pairs picked by `filterMap` preserve order-compatibility: if the
source list is pairwise `R` and the picked values respect `R` through `S`,
the result is pairwise `S`. -/
theorem pairwise_filterMap_of_order {a b : Type} {R : a → a → Prop}
    {S : b → b → Prop} (g : a → Option b) :
    ∀ (l : List a), l.Pairwise R →
      (∀ x y u v, R x y → g x = some u → g y = some v → S u v) →
      (l.filterMap g).Pairwise S := by
  intro l
  induction l with
  | nil => intro _ _; simp
  | cons x l ih =>
    intro hp hg
    rw [List.pairwise_cons] at hp
    cases hgx : g x with
    | none => rw [List.filterMap_cons_none hgx]; exact ih hp.2 hg
    | some u =>
      rw [List.filterMap_cons_some hgx]
      refine List.pairwise_cons.2 ⟨?_, ih hp.2 hg⟩
      intro v hv
      obtain ⟨y, hy, hgy⟩ := List.mem_filterMap.1 hv
      exact hg x y u v (hp.1 y hy) hgx hgy

/-- In a strictly increasing list, in-bounds reads at increasing positions
give increasing values. -/
theorem pairwise_get?_lt {l : List Nat} (h : l.Pairwise (· < ·))
    {i j x y : Nat} (hij : i < j) (hx : l.get? i = some x)
    (hy : l.get? j = some y) : x < y := by
  rw [List.get?_eq_some] at hx hy
  obtain ⟨hi, hx⟩ := hx
  obtain ⟨hj, hy⟩ := hy
  subst hx
  subst hy
  exact List.pairwise_iff_get.1 h ⟨i, hi⟩ ⟨j, hj⟩ hij

/-- The defined target lines of the collected comments, in collection order,
are strictly increasing whenever the offset list is. -/
theorem buildComments_lines_pairwise (offs : List Nat) (lines cls : List String)
    (h : offs.Pairwise (· < ·)) :
    ((buildComments offs lines cls).filterMap
      (fun c => c.1)).Pairwise (· < ·) := by
  rw [show buildComments offs lines cls =
      (List.range (min lines.length cls.length)).filterMap (fun i =>
        if mkCommentBody (cls.getD i emptyStr) = [] then none
        else some (offs.get? i, commentTextOf (cls.getD i emptyStr))) from rfl]
  rw [List.filterMap_filterMap]
  refine pairwise_filterMap_of_order _ _ (List.pairwise_lt_range _) ?_
  intro i j x y hij hgi hgj
  by_cases hpi : mkCommentBody (cls.getD i emptyStr) = []
  · rw [if_pos hpi] at hgi
    simp at hgi
  · rw [if_neg hpi] at hgi
    simp only [Option.some_bind] at hgi
    by_cases hpj : mkCommentBody (cls.getD j emptyStr) = []
    · rw [if_pos hpj] at hgj
      simp at hgj
    · rw [if_neg hpj] at hgj
      simp only [Option.some_bind] at hgj
      exact pairwise_get?_lt h hij hgi hgj

/-- Every insertion comes from a collected comment pair. -/
theorem mem_mkInsertions {cs : List (Option Nat × String)} {ins : Insertion}
    (h : ins ∈ mkInsertions cs) :
    ∃ c ∈ cs, ins = { line := c.1, col := 0, text := strCat c.2 nl } := by
  simp only [mkInsertions, List.mem_map, List.mem_reverse] at h
  obtain ⟨c, hc, rfl⟩ := h
  exact ⟨c, hc, rfl⟩

/-- The edit of an invocation is either empty or the reversed collected
comments of some reply content. -/
theorem generateComments_insertions_shape (inp : GenInput) :
    (generateComments inp).insertions = []
      ∨ ∃ content, (generateComments inp).insertions =
          mkInsertions (buildComments (offsetsOf inp) (retainedOf inp)
            (replyLinesOf content)) := by
  unfold generateComments
  split
  · left; rfl
  · split
    · left; rfl
    · split
      · left; rfl
      · split
        · left; rfl
        · next c heq =>
            right
            exact ⟨c, rfl⟩

/-- The recorded offsets of every invocation are strictly increasing. -/
theorem offsetsOf_pairwise (inp : GenInput) :
    (offsetsOf inp).Pairwise (· < ·) :=
  offsetsGo_pairwise _ _ _

/-- C3 (amended): for every per-line invocation, the comment insertions of
the single edit transaction are applied in descending order of target line
number (the defined target lines, read in application order, are strictly
decreasing), each at column 0 with a trailing line break; in particular,
given retained source lines at original positions 3, 5, 9 and a reply with
exactly three non-blank lines, each of which still has a non-empty comment
after marker stripping, exactly three comments are inserted at lines 9, 5, 3
in that descending order. -/
theorem c3_descending_insertions :
    (∀ (inp : GenInput), ∀ ins ∈ (generateComments inp).insertions,
        ins.col = 0 ∧ ∃ c, ins.text = strCat c nl)
      ∧ (∀ (inp : GenInput),
          ((generateComments inp).insertions.filterMap
            Insertion.line).Pairwise (· > ·))
      ∧ (∀ (inp : GenInput) (k content r0 r1 r2 : String),
          trimChars (fullTextOf inp).data ≠ [] →
          inp.storedKey = some k → k.data ≠ [] →
          inp.remote = RemoteResult.ok content →
          offsetsOf inp = [3, 5, 9] →
          (retainedOf inp).length = 3 →
          replyLinesOf content = [r0, r1, r2] →
          mkCommentBody r0 ≠ [] → mkCommentBody r1 ≠ [] →
          mkCommentBody r2 ≠ [] →
          (generateComments inp).insertions =
            [ { line := some 9, col := 0, text := strCat (commentTextOf r2) nl },
              { line := some 5, col := 0, text := strCat (commentTextOf r1) nl },
              { line := some 3, col := 0,
                text := strCat (commentTextOf r0) nl } ]) := by
  refine ⟨?_, ?_, ?_⟩
  · intro inp ins hins
    rcases generateComments_insertions_shape inp with hsh | ⟨content, hsh⟩
    · rw [hsh] at hins
      simp at hins
    · rw [hsh] at hins
      obtain ⟨c, _, rfl⟩ := mem_mkInsertions hins
      exact ⟨rfl, c.2, rfl⟩
  · intro inp
    rcases generateComments_insertions_shape inp with hsh | ⟨content, hsh⟩
    · rw [hsh]
      simp
    · rw [hsh]
      rw [show mkInsertions (buildComments (offsetsOf inp) (retainedOf inp)
          (replyLinesOf content)) =
        (buildComments (offsetsOf inp) (retainedOf inp)
          (replyLinesOf content)).reverse.map
          (fun c => { line := c.1, col := 0, text := strCat c.2 nl }) from rfl]
      rw [List.filterMap_map]
      rw [show (Insertion.line ∘ fun c : Option Nat × String =>
          ({ line := c.1, col := 0, text := strCat c.2 nl } : Insertion)) =
          fun c : Option Nat × String => c.1 from rfl]
      rw [List.filterMap_reverse, List.pairwise_reverse]
      exact buildComments_lines_pairwise _ _ _ (offsetsOf_pairwise inp)
  · intro inp k content r0 r1 r2 hnb hk hke hr hoff hlen hcls h0 h1 h2
    rw [generateComments_ok inp k content hnb hk hke hr]
    show mkInsertions (buildComments (offsetsOf inp) (retainedOf inp)
      (replyLinesOf content)) = _
    rw [hoff, hcls,
      buildComments_three 3 5 9 (retainedOf inp) r0 r1 r2 hlen h0 h1 h2]
    simp [mkInsertions]

/-- Witness for the amended C3 at a concrete invocation. -/
theorem c3_descending_insertions_witness :
    (generateComments c3w).insertions =
      [ { line := some 9, col := 0, text := strCat (commentTextOf w3r2) nl },
        { line := some 5, col := 0, text := strCat (commentTextOf w3r1) nl },
        { line := some 3, col := 0, text := strCat (commentTextOf w3r0) nl } ] :=
  c3_descending_insertions.2.2 c3w keyK c3wContent w3r0 w3r1 w3r2 (by decide)
    rfl (by decide) rfl (by decide) (by decide) (by decide) (by decide)
    (by decide) (by decide)

/-- C2 counterexample: the reply line `// // x` keeps a doubled marker; the
non-global replace strips only the first marker occurrence, so the inserted
text begins with a doubled marker. -/
theorem c2_counterexample :
    (generateComments c2In).insertions.map Insertion.text = [c2InsText]
      ∧ strStartsWith c2InsText doubledMarker = true := by
  decide

/-- C2 (amended): exactly one leading marker (with at most one following
whitespace character) is stripped from a paired reply line and the comment is
re-prefixed with one canonical marker; provided the stripped remainder does
not itself begin with a marker, the inserted comment does not begin with a
doubled marker. -/
theorem c2_single_marker (r : String) (_hne : mkCommentBody r ≠ [])
    (hm : markerAtFront (mkCommentBody r) = false) :
    (commentTextOf r).data = markerChars ++ mkCommentBody r
      ∧ strStartsWith (commentTextOf r) canonicalMarker = true
      ∧ markerAtFront ((commentTextOf r).data.drop 3) = false
      ∧ ∀ t : List Char, (commentTextOf r).data ≠ doubledMarker.data ++ t := by
  refine ⟨rfl, ?_, ?_, ?_⟩
  · simp [strStartsWith, commentTextOf, canonicalMarker, markerChars,
      List.isPrefixOf]
  · have hd : (commentTextOf r).data.drop 3 = mkCommentBody r := rfl
    rw [hd]
    exact hm
  · intro t ht
    have ht' : markerChars ++ mkCommentBody r =
        (markerChars ++ ['/', '/']) ++ t := ht
    rw [List.append_assoc] at ht'
    have hb : mkCommentBody r = ['/', '/'] ++ t :=
      List.append_cancel_left ht'
    rw [hb] at hm
    have htrue : markerAtFront (['/', '/'] ++ t) = true := rfl
    rw [htrue] at hm
    exact absurd hm (by simp)

/-- Witness for the amended C2 at a concrete marker-led reply line. -/
theorem c2_single_marker_witness :
    (commentTextOf w2r).data = markerChars ++ mkCommentBody w2r
      ∧ strStartsWith (commentTextOf w2r) canonicalMarker = true
      ∧ markerAtFront ((commentTextOf w2r).data.drop 3) = false
      ∧ ∀ t : List Char, (commentTextOf w2r).data ≠ doubledMarker.data ++ t :=
  c2_single_marker w2r (by decide) (by decide)

/-- C5: when the remote call fails, the invocation performs zero edits and
shows exactly one error notification whose text carries the most specific
available error message: the response error message when present and
non-empty, else the thrown error's own message when present and non-empty,
else the generic network-error fallback. -/
theorem c5_remote_failure (inp : GenInput) (k : String) (e : GroqFailure)
    (hnb : trimChars (fullTextOf inp).data ≠ [])
    (hk : inp.storedKey = some k) (hke : k.data ≠ [])
    (hr : inp.remote = RemoteResult.failure e) :
    (generateComments inp).insertions = []
      ∧ (generateComments inp).networkCalls = 1
      ∧ (generateComments inp).errorMsgs = [strCat groqErrHead (groqErrMsg e)]
      ∧ (generateComments inp).errorMsgs.length = 1
      ∧ (∀ m, e.responseErrMsg = some m → m.data ≠ [] → groqErrMsg e = m)
      ∧ ((e.responseErrMsg = none ∨ e.responseErrMsg = some emptyStr) →
          ∀ m, e.errMessage = some m → m.data ≠ [] → groqErrMsg e = m)
      ∧ ((e.responseErrMsg = none ∨ e.responseErrMsg = some emptyStr) →
          (e.errMessage = none ∨ e.errMessage = some emptyStr) →
          groqErrMsg e = netErrMsg) := by
  rw [generateComments_failure inp k e hnb hk hke hr]
  refine ⟨rfl, rfl, rfl, rfl, ?_, ?_, ?_⟩
  · intro m hm hne
    simp [groqErrMsg, jsOr, hm, hne]
  · rintro (h | h) m hm hne <;>
      simp [groqErrMsg, jsOr, h, hm, hne, emptyStr]
  · rintro (h | h) (h2 | h2) <;>
      simp [groqErrMsg, jsOr, h, h2, emptyStr]

/-- Witness for C5 at a concrete failed invocation. -/
theorem c5_remote_failure_witness :
    (generateComments c5w).insertions = []
      ∧ (generateComments c5w).networkCalls = 1
      ∧ (generateComments c5w).errorMsgs = [strCat groqErrHead (groqErrMsg w5e)]
      ∧ (generateComments c5w).errorMsgs.length = 1
      ∧ (∀ m, w5e.responseErrMsg = some m → m.data ≠ [] → groqErrMsg w5e = m)
      ∧ ((w5e.responseErrMsg = none ∨ w5e.responseErrMsg = some emptyStr) →
          ∀ m, w5e.errMessage = some m → m.data ≠ [] → groqErrMsg w5e = m)
      ∧ ((w5e.responseErrMsg = none ∨ w5e.responseErrMsg = some emptyStr) →
          (w5e.errMessage = none ∨ w5e.errMessage = some emptyStr) →
          groqErrMsg w5e = netErrMsg) :=
  c5_remote_failure c5w keyK w5e (by decide) rfl (by decide) rfl

/-- C6: a selection whose text is only whitespace after trimming aborts with
the nothing-to-comment warning, zero network calls and zero edits. -/
theorem c6_blank_selection (inp : GenInput)
    (h : trimChars (fullTextOf inp).data = []) :
    generateComments inp =
      { networkCalls := 0, insertions := [], errorMsgs := [],
        warningMsgs := [noCodeMsg], infoMsgs := [] } := by
  unfold generateComments
  rw [if_pos h]

/-- Witness for C6 at a whitespace-only document. -/
theorem c6_blank_selection_witness :
    generateComments c6w =
      { networkCalls := 0, insertions := [], errorMsgs := [],
        warningMsgs := [noCodeMsg], infoMsgs := [] } :=
  c6_blank_selection c6w (by decide)

/-- C7 counterexample: on a whitespace-only document with no stored key, the
invocation aborts with the nothing-to-comment warning and shows no error
notification at all, so the key-missing error is not emitted for every
invocation with an absent key. -/
theorem c7_counterexample :
    c7In.storedKey = none
      ∧ (generateComments c7In).errorMsgs = []
      ∧ (generateComments c7In).warningMsgs = [noCodeMsg]
      ∧ (generateComments c7In).networkCalls = 0
      ∧ (generateComments c7In).insertions = [] := by
  decide

/-- C7 (amended): for every invocation whose selection text is non-blank and
whose credential store holds no key, the action emits the error notification
instructing the user to set the key first, makes zero network requests and
performs zero document edits. -/
theorem c7_missing_key (inp : GenInput)
    (hnb : trimChars (fullTextOf inp).data ≠ [])
    (hk : inp.storedKey = none) :
    generateComments inp = noKeyResult
      ∧ noKeyResult.networkCalls = 0
      ∧ noKeyResult.insertions = []
      ∧ noKeyResult.errorMsgs = [noKeyMsg] := by
  refine ⟨?_, rfl, rfl, rfl⟩
  unfold generateComments
  rw [if_neg hnb, hk]

/-- Witness for the amended C7 at a concrete keyless invocation. -/
theorem c7_missing_key_witness :
    generateComments c7w = noKeyResult
      ∧ noKeyResult.networkCalls = 0
      ∧ noKeyResult.insertions = []
      ∧ noKeyResult.errorMsgs = [noKeyMsg] :=
  c7_missing_key c7w (by decide) rfl

/-- C8: for an empty selection over a two-line document, the offset array has
a single entry while two pairs are read, so the second read is out of bounds
and the second insertion has an undefined target line (`none`), refuting the
claim that every paired comment receives a defined target line. -/
theorem c8_out_of_bounds :
    c8In.sel.isEmptySel = true
      ∧ (retainedOf c8In).length = 2
      ∧ (offsetsOf c8In).length = 1
      ∧ (generateComments c8In).insertions =
          [ { line := none, col := 0, text := "// y\n" },
            { line := some 0, col := 0, text := "// x\n" } ]
      ∧ ((generateComments c8In).insertions.map Insertion.line).contains none
          = true := by
  decide

/-- C10: a cancelled or empty input box leaves the secret store untouched and
shows the cancellation warning; otherwise the entered key is trimmed and
stored under the fixed identifier, leaving every other name unchanged. -/
theorem c10_set_key (secrets : String → Option String) (input : Option String) :
    ((input = none ∨ input = some emptyStr) →
        (setApiKeyCommand secrets input).secrets = secrets
          ∧ (setApiKeyCommand secrets input).warningMsgs = [cancelMsg]
          ∧ (setApiKeyCommand secrets input).infoMsgs = [])
      ∧ (∀ k, input = some k → k.data ≠ [] →
          (setApiKeyCommand secrets input).secrets KEY_NAME = some (jsTrim k)
            ∧ (∀ n, n ≠ KEY_NAME →
                (setApiKeyCommand secrets input).secrets n = secrets n)
            ∧ (setApiKeyCommand secrets input).warningMsgs = []
            ∧ (setApiKeyCommand secrets input).infoMsgs = [savedMsg]) := by
  constructor
  · rintro (rfl | rfl)
    · exact ⟨rfl, rfl, rfl⟩
    · exact ⟨rfl, rfl, rfl⟩
  · rintro k rfl hne
    have e : setApiKeyCommand secrets (some k) =
        { secrets := fun n => if n = KEY_NAME then some (jsTrim k) else secrets n,
          warningMsgs := [], infoMsgs := [savedMsg] } := by
      unfold setApiKeyCommand
      exact if_neg hne
    rw [e]
    exact ⟨by simp, fun n hn => by simp [hn], rfl, rfl⟩

/-- Witness for C10: a non-empty key entry is trimmed and stored under the
fixed identifier. -/
theorem c10_set_key_witness :
    (setApiKeyCommand (fun _ => none) (some w10Key)).secrets KEY_NAME =
      some (jsTrim w10Key) :=
  ((c10_set_key (fun _ => none) (some w10Key)).2 w10Key rfl (by decide)).1
